import Mathlib

/-!
# Verification of the label-reconciliation engine

Shallow embedding of `spine_cicd_actions/sync_labels.py`: the per-target
reconciler `sync_labels_to_repo`, the target-list loader `load_repos`, and
the orchestrator `main`.  Remote behaviour (the GitHub API) is modelled by
explicit oracles: a target's existing label names are an input, and the
outcome of a `create_label` call is given by a function from label name to
an optional failure message (`none` = the call succeeds, `some msg` = the
call raises `GithubException` with that message).
-/

set_option autoImplicit false

namespace SyncLabels

/-- A label as materialised by `get_labels`: name, color, description
(description already defaulted to the empty string). -/
structure Label where
  name : String
  color : String
  description : String
deriving DecidableEq, Repr

/-- One remote `create_label(name=..., color=..., description=...)` request
issued against a target repository (the only mutating call in the code). -/
structure CreateCall where
  name : String
  color : String
  description : String
deriving DecidableEq, Repr

/-- The create request built from a source label. -/
def Label.toCall (l : Label) : CreateCall :=
  ⟨l.name, l.color, l.description⟩

/-- Observable outcome of one `sync_labels_to_repo` run: the labels counted
as created, skipped (already existing) and errored — the code keeps counts,
which are the lengths of these lists, and prints the names in loop order —
together with the list of remote create requests actually issued. -/
structure SyncResult where
  created : List String
  skipped : List String
  errors : List (String × String)
  calls : List CreateCall
deriving DecidableEq, Repr

/-- `sync_labels_to_repo(source_labels, target_repo, dry_run)` after the
target's existing labels have been fetched: `existing` is the name set of
the target's current labels (the keys of the `existing_labels` dict, built
once before the loop), `remote` gives each create call's outcome.  The loop
body: a name already present is skipped; otherwise, under dry-run the label
is counted as created with no remote call; otherwise `create_label` is
issued — on success the label is counted as created, on `GithubException`
the pair (name, message) is recorded and the loop continues. -/
def sync_labels_to_repo (source_labels : List Label) (existing : List String)
    (remote : String → Option String) (dry_run : Bool) : SyncResult :=
  match source_labels with
  | [] => ⟨[], [], [], []⟩
  | lab :: rest =>
    let r := sync_labels_to_repo rest existing remote dry_run
    if lab.name ∈ existing then
      { r with skipped := lab.name :: r.skipped }
    else if dry_run then
      { r with created := lab.name :: r.created }
    else
      match remote lab.name with
      | none =>
          { r with created := lab.name :: r.created,
                   calls := lab.toCall :: r.calls }
      | some msg =>
          { r with errors := (lab.name, msg) :: r.errors,
                   calls := lab.toCall :: r.calls }

/-- A YAML value as returned by `yaml.safe_load` (an empty document loads
as `ynull`). -/
inductive Yaml where
  | ynull
  | ystr (s : String)
  | ylist (xs : List Yaml)
  | ydict (entries : List (String × Yaml))
deriving Repr

/-- Python `dict.get(k, default)` on the entry list of a parsed mapping. -/
def dictGet (entries : List (String × Yaml)) (k : String) (dflt : Yaml) : Yaml :=
  match entries.find? (fun p => p.1 == k) with
  | some p => p.2
  | none => dflt

/-- `load_repos`: `yaml.safe_load(f).get("repos", [])`.  On a document that
does not load as a mapping, `.get` raises `AttributeError` (modelled as
`Except.error`); on a mapping it returns the value stored under `"repos"`,
or the empty list when the key is absent. -/
def load_repos : Yaml → Except String Yaml
  | .ydict es => .ok (dictGet es "repos" (.ylist []))
  | _ => .error "AttributeError"

/-- The target's label-name set after the remote has processed the issued
create calls: every successful create adds its label name; failed requests
add nothing. -/
def applyCalls (existing : List String) (calls : List CreateCall)
    (remote : String → Option String) : List String :=
  existing ++ (calls.filter (fun c => (remote c.name).isNone)).map CreateCall.name

/-- The environment of one `main` run: the two environment variables, the
outcome of accessing the source repository (`some org` = `g.get_repo`
succeeds and `organization.login` is `org`; `none` = `GithubException`),
the outcome of `get_labels(source_repo)` (`none` = the unguarded fetch
raises), whether `repos.yaml` exists, the downstream list it declares, and
per-target oracles: `target_fetch full_name` is the target's existing label
names (`none` = `GithubException` while accessing the target), and
`remote full_name label_name` the create-call outcome on that target. -/
structure Env where
  github_token : Option String
  github_repository : Option String
  source_access : Option String
  source_labels_fetch : Option (List Label)
  repos_file_exists : Bool
  downstream_repos : List String
  target_fetch : String → Option (List String)
  remote : String → String → Option String

/-- Accumulated state of the per-target loop in `main`: the three aggregate
counters, the full names of the targets attempted (in declaration order),
and every remote create request issued, tagged with its target. -/
structure LoopResult where
  total_created : Nat
  total_skipped : Nat
  total_errors : Nat
  attempted : List String
  all_calls : List (String × CreateCall)
deriving DecidableEq, Repr

/-- The `for repo_name in downstream_repos` loop of `main`: each entry is
resolved to `org_name + "/" + repo_name`; a `GithubException` accessing the
target adds one error and moves on; otherwise `sync_labels_to_repo` runs
(without a dry-run argument, hence `dry_run = False`) and its counts are
added to the totals. -/
def syncAll (org : String) (source_labels : List Label)
    (target_fetch : String → Option (List String))
    (remote : String → String → Option String) :
    List String → LoopResult
  | [] => ⟨0, 0, 0, [], []⟩
  | repo_name :: rest =>
    let full := org ++ "/" ++ repo_name
    let r := syncAll org source_labels target_fetch remote rest
    match target_fetch full with
    | none =>
        ⟨r.total_created, r.total_skipped, r.total_errors + 1,
         full :: r.attempted, r.all_calls⟩
    | some existing =>
        let res := sync_labels_to_repo source_labels existing (remote full) false
        ⟨res.created.length + r.total_created,
         res.skipped.length + r.total_skipped,
         res.errors.length + r.total_errors,
         full :: r.attempted,
         res.calls.map (fun c => (full, c)) ++ r.all_calls⟩

/-- Observable result of a `main` run: the process exit code, whether the
run reached the FINAL SUMMARY block (`completed`), the aggregate counters,
the targets attempted and all remote create requests issued. -/
structure MainResult where
  exit_code : Nat
  completed : Bool
  total_created : Nat
  total_skipped : Nat
  total_errors : Nat
  attempted : List String
  all_calls : List (String × CreateCall)
deriving DecidableEq, Repr

/-- A run that aborts before the target loop: exit status 1 (both
`sys.exit(1)` and a process killed by an uncaught exception report status
1), no target attempted, no remote create call issued. -/
def abortResult : MainResult := ⟨1, false, 0, 0, 0, [], []⟩

/-- `main`: missing `GITHUB_TOKEN` or `GITHUB_REPOSITORY` → exit 1; failed
source-repository access → exit 1; a raise in `get_labels(source_repo)` is
uncaught → abort; missing `repos.yaml` → exit 1.  Otherwise run the target
loop and exit 1 exactly when `total_errors > 0`, else fall off the end
(exit 0). -/
def main (env : Env) : MainResult :=
  match env.github_token with
  | none => abortResult
  | some _ =>
  match env.github_repository with
  | none => abortResult
  | some _ =>
  match env.source_access with
  | none => abortResult
  | some org =>
  match env.source_labels_fetch with
  | none => abortResult
  | some source_labels =>
  if env.repos_file_exists then
    let r := syncAll org source_labels env.target_fetch env.remote env.downstream_repos
    ⟨if r.total_errors > 0 then 1 else 0, true, r.total_created, r.total_skipped,
     r.total_errors, r.attempted, r.all_calls⟩
  else abortResult

/-! ## Characterisation of the reconciler loop -/

/-- Labels skipped are exactly the source labels whose name is already in
the target, in source order, for any dry-run setting. -/
theorem sync_skipped_eq (S : List Label) (ex : List String)
    (remote : String → Option String) (d : Bool) :
    (sync_labels_to_repo S ex remote d).skipped
      = (S.filter (fun l => decide (l.name ∈ ex))).map Label.name := by
  induction S with
  | nil => rfl
  | cons lab rest ih =>
    simp only [sync_labels_to_repo]
    by_cases h : lab.name ∈ ex
    · simp [h, ih]
    · cases d
      · cases hr : remote lab.name <;> simp [h, hr, ih]
      · simp [h, ih]

/-- In a real run, labels counted as created are exactly the source labels
absent from the target whose create call succeeds, in source order. -/
theorem sync_created_eq (S : List Label) (ex : List String)
    (remote : String → Option String) :
    (sync_labels_to_repo S ex remote false).created
      = (S.filter (fun l => decide (¬ l.name ∈ ex) && (remote l.name).isNone)).map
          Label.name := by
  induction S with
  | nil => rfl
  | cons lab rest ih =>
    simp only [sync_labels_to_repo]
    by_cases h : lab.name ∈ ex
    · simp [h, ih]
    · cases hr : remote lab.name <;> simp [h, hr, ih]

/-- In a real run, the errors recorded are exactly the pairs (name,
message) of source labels absent from the target whose create call fails,
in source order. -/
theorem sync_errors_eq (S : List Label) (ex : List String)
    (remote : String → Option String) :
    (sync_labels_to_repo S ex remote false).errors
      = S.filterMap (fun l =>
          if l.name ∈ ex then none
          else (remote l.name).map (fun m => (l.name, m))) := by
  induction S with
  | nil => rfl
  | cons lab rest ih =>
    simp only [sync_labels_to_repo]
    by_cases h : lab.name ∈ ex
    · simp [h, ih]
    · cases hr : remote lab.name <;> simp [h, hr, ih]

/-- In a real run, the create requests issued are exactly one per source
label absent from the target (also when the request fails), in source
order, built from the label's name, color and description. -/
theorem sync_calls_eq (S : List Label) (ex : List String)
    (remote : String → Option String) :
    (sync_labels_to_repo S ex remote false).calls
      = (S.filter (fun l => decide (¬ l.name ∈ ex))).map Label.toCall := by
  induction S with
  | nil => rfl
  | cons lab rest ih =>
    simp only [sync_labels_to_repo]
    by_cases h : lab.name ∈ ex
    · simp [h, ih]
    · cases hr : remote lab.name <;> simp [h, hr, ih]

/-- A dry run records as created every absent label, skips every present
one, records no error and issues no remote request. -/
theorem sync_dry_run_eq (S : List Label) (ex : List String)
    (remote : String → Option String) :
    sync_labels_to_repo S ex remote true
      = ⟨(S.filter (fun l => decide (¬ l.name ∈ ex))).map Label.name,
         (S.filter (fun l => decide (l.name ∈ ex))).map Label.name,
         [], []⟩ := by
  induction S with
  | nil => rfl
  | cons lab rest ih =>
    simp only [sync_labels_to_repo]
    by_cases h : lab.name ∈ ex <;> simp [h, ih]

/-- When a label is already present nothing is attempted on it, so when
every source name is present the whole run only skips. -/
theorem sync_all_existing (S : List Label) (ex : List String)
    (remote : String → Option String)
    (h : ∀ l ∈ S, l.name ∈ ex) :
    sync_labels_to_repo S ex remote false
      = ⟨[], S.map Label.name, [], []⟩ := by
  induction S with
  | nil => rfl
  | cons lab rest ih =>
    have hl : lab.name ∈ ex := h lab (List.mem_cons_self lab rest)
    have hrest := ih (fun l hm => h l (List.mem_cons_of_mem lab hm))
    simp only [sync_labels_to_repo]
    simp [hl, hrest]

/-! ## Claims -/

/-- C2: for every reconciliation in which the target's current label set is
fetched successfully (the model's loop only runs after that fetch), the
counts satisfy created + skipped + errors = number of source labels — every
source label is counted in exactly one of the three categories, for either
dry-run setting. -/
theorem reconcile_counts_partition (S : List Label) (ex : List String)
    (remote : String → Option String) (d : Bool) :
    (sync_labels_to_repo S ex remote d).created.length
      + (sync_labels_to_repo S ex remote d).skipped.length
      + (sync_labels_to_repo S ex remote d).errors.length = S.length := by
  induction S with
  | nil => rfl
  | cons lab rest ih =>
    simp only [sync_labels_to_repo]
    by_cases h : lab.name ∈ ex
    · simp [h]; omega
    · cases d
      · cases hr : remote lab.name <;> simp [h, hr] <;> omega
      · simp [h]; omega

/-- C10: whenever dry_run is true, the reconciler reports an error count of
exactly 0 for every source label set and every fetched target: the error
branch is reachable only from a real remote create attempt, which never
occurs under dry-run. -/
theorem dry_run_no_errors (S : List Label) (ex : List String)
    (remote : String → Option String) :
    (sync_labels_to_repo S ex remote true).errors.length = 0 := by
  simp [sync_dry_run_eq]

/-- C3: with the dry-run flag set, the reconciler issues no remote create
request against any target (so a subsequent fetch of the target's labels is
unchanged), yet its created/skipped/errors reporting is identical to a real
run in which every create call succeeds — would-be creations are recorded
under created, not a separate field. -/
theorem dry_run_no_mutation (S : List Label) (ex : List String)
    (remote : String → Option String) :
    (sync_labels_to_repo S ex remote true).calls = [] ∧
    applyCalls ex (sync_labels_to_repo S ex remote true).calls remote = ex ∧
    (sync_labels_to_repo S ex remote true).created
      = (sync_labels_to_repo S ex (fun _ => none) false).created ∧
    (sync_labels_to_repo S ex remote true).skipped
      = (sync_labels_to_repo S ex (fun _ => none) false).skipped ∧
    (sync_labels_to_repo S ex remote true).errors
      = (sync_labels_to_repo S ex (fun _ => none) false).errors := by
  refine ⟨?_, ?_, ?_, ?_, ?_⟩
  · simp [sync_dry_run_eq]
  · simp [sync_dry_run_eq, applyCalls]
  · simp [sync_dry_run_eq, sync_created_eq]
  · simp [sync_dry_run_eq, sync_skipped_eq]
  · rw [sync_errors_eq]
    simp [sync_dry_run_eq]

/-- C7: a label whose name already exists in the target triggers no remote
action — every create request issued is for a name absent from the target —
and existing labels are never updated or deleted: every existing name is
still present after the remote processes the issued requests (the only kind
of request the code ever issues is a create). -/
theorem additive_only_reconciliation (S : List Label) (ex : List String)
    (remote : String → Option String) :
    (∀ c ∈ (sync_labels_to_repo S ex remote false).calls, ¬ c.name ∈ ex) ∧
    (∀ n ∈ ex,
      n ∈ applyCalls ex (sync_labels_to_repo S ex remote false).calls remote) := by
  constructor
  · intro c hc
    rw [sync_calls_eq] at hc
    simp only [List.mem_map, List.mem_filter] at hc
    obtain ⟨l, ⟨_, hl⟩, hcall⟩ := hc
    subst hcall
    simpa [Label.toCall] using hl
  · intro n hn
    simp [applyCalls, hn]

/-- C1: for a source set S and a target whose existing label set T is a
subset of S by name, a real reconciliation with all create calls succeeding
yields errors = [], created = S − T by name (as the source-ordered list of
names not in T, hence as a set the difference), and skipped_existing = T
(up to order). -/
theorem reconcile_creates_difference (S : List Label) (T : List String)
    (remote : String → Option String)
    (hok : ∀ n, remote n = none)
    (hsub : ∀ n ∈ T, n ∈ S.map Label.name)
    (hS : (S.map Label.name).Nodup) (hT : T.Nodup) :
    (sync_labels_to_repo S T remote false).errors = [] ∧
    (sync_labels_to_repo S T remote false).created
      = (S.map Label.name).filter (fun n => decide (¬ n ∈ T)) ∧
    (sync_labels_to_repo S T remote false).created.toFinset
      = (S.map Label.name).toFinset \ T.toFinset ∧
    (sync_labels_to_repo S T remote false).skipped.Perm T := by
  have hcreated : (sync_labels_to_repo S T remote false).created
      = (S.map Label.name).filter (fun n => decide (¬ n ∈ T)) := by
    rw [sync_created_eq, List.filter_map]
    refine congrArg (List.map Label.name) (List.filter_congr ?_)
    intro l _
    simp [hok, Function.comp]
  have hskip : (sync_labels_to_repo S T remote false).skipped
      = (S.map Label.name).filter (fun n => decide (n ∈ T)) := by
    rw [sync_skipped_eq, List.filter_map]
    rfl
  refine ⟨?_, hcreated, ?_, ?_⟩
  · rw [sync_errors_eq, List.filterMap_eq_nil_iff]
    intro l _
    by_cases hmem : l.name ∈ T
    · simp [hmem]
    · simp [hmem, hok]
  · ext a
    simp only [hcreated, List.mem_toFinset, List.mem_filter, Finset.mem_sdiff,
      decide_eq_true_eq]
  · refine List.perm_of_nodup_nodup_toFinset_eq ?_ hT ?_
    · rw [hskip]
      exact hS.filter _
    · ext a
      simp only [hskip, List.mem_toFinset, List.mem_filter, decide_eq_true_eq]
      exact ⟨fun h => h.2, fun h => ⟨hsub a h, h⟩⟩

/-- Witness for C1 at the spec's end-to-end scenario: source
[bug, docs], target already has bug, every create succeeds. -/
theorem reconcile_creates_difference_witness :
    (sync_labels_to_repo
        [⟨"bug", "ff0000", ""⟩, ⟨"docs", "0000ff", "Documentation"⟩]
        ["bug"] (fun _ => none) false).errors = [] ∧
    (sync_labels_to_repo
        [⟨"bug", "ff0000", ""⟩, ⟨"docs", "0000ff", "Documentation"⟩]
        ["bug"] (fun _ => none) false).created
      = (([⟨"bug", "ff0000", ""⟩, ⟨"docs", "0000ff", "Documentation"⟩] :
            List Label).map Label.name).filter
          (fun n => decide (¬ n ∈ ["bug"])) ∧
    (sync_labels_to_repo
        [⟨"bug", "ff0000", ""⟩, ⟨"docs", "0000ff", "Documentation"⟩]
        ["bug"] (fun _ => none) false).created.toFinset
      = (([⟨"bug", "ff0000", ""⟩, ⟨"docs", "0000ff", "Documentation"⟩] :
            List Label).map Label.name).toFinset \ (["bug"] : List String).toFinset ∧
    (sync_labels_to_repo
        [⟨"bug", "ff0000", ""⟩, ⟨"docs", "0000ff", "Documentation"⟩]
        ["bug"] (fun _ => none) false).skipped.Perm ["bug"] :=
  reconcile_creates_difference
    [⟨"bug", "ff0000", ""⟩, ⟨"docs", "0000ff", "Documentation"⟩]
    ["bug"] (fun _ => none) (fun _ => rfl) (by decide) (by decide) (by decide)

/-- C9 (amended with: every create call of the first run succeeds):
running the reconciler a second time, against the target state produced by
the first run's own creates, creates nothing: every source label is
skipped, whatever the remote would answer on the second run. -/
theorem reconcile_idempotent (S : List Label) (T : List String)
    (remote remote2 : String → Option String)
    (hok : ∀ n, remote n = none) :
    sync_labels_to_repo S
        (applyCalls T (sync_labels_to_repo S T remote false).calls remote)
        remote2 false
      = ⟨[], S.map Label.name, [], []⟩ := by
  apply sync_all_existing
  intro l hl
  simp only [applyCalls, sync_calls_eq, List.mem_append]
  by_cases hmem : l.name ∈ T
  · exact Or.inl hmem
  · right
    refine List.mem_map.mpr ⟨l.toCall, List.mem_filter.mpr ⟨?_, ?_⟩, rfl⟩
    · exact List.mem_map_of_mem _ (List.mem_filter.mpr ⟨hl, by simp [hmem]⟩)
    · simp [Label.toCall, hok]

/-- C9 counterexample: when the first run's create of docs fails, the
target's label state still changes only through the first run's own
(successful) creates — here none — yet the second run's skipped_existing
does not contain every source label: docs is re-attempted, not skipped. -/
theorem reconcile_idempotent_counterexample :
    ¬ "docs" ∈ (sync_labels_to_repo
        [⟨"bug", "ff0000", ""⟩, ⟨"docs", "0000ff", "Documentation"⟩]
        (applyCalls ["bug"]
          (sync_labels_to_repo
            [⟨"bug", "ff0000", ""⟩, ⟨"docs", "0000ff", "Documentation"⟩]
            ["bug"] (fun n => if n = "docs" then some "boom" else none)
            false).calls
          (fun n => if n = "docs" then some "boom" else none))
        (fun n => if n = "docs" then some "boom" else none) false).skipped ∧
    "docs" ∈ ([⟨"bug", "ff0000", ""⟩, ⟨"docs", "0000ff", "Documentation"⟩] :
        List Label).map Label.name := by
  decide

/-- Witness for C9: second run over the state left by a first successful
run that created docs on a target already holding bug. -/
theorem reconcile_idempotent_witness :
    sync_labels_to_repo
        [⟨"bug", "ff0000", ""⟩, ⟨"docs", "0000ff", "Documentation"⟩]
        (applyCalls ["bug"]
          (sync_labels_to_repo
            [⟨"bug", "ff0000", ""⟩, ⟨"docs", "0000ff", "Documentation"⟩]
            ["bug"] (fun _ => none) false).calls (fun _ => none))
        (fun _ => none) false
      = ⟨[], ["bug", "docs"], [], []⟩ :=
  reconcile_idempotent
    [⟨"bug", "ff0000", ""⟩, ⟨"docs", "0000ff", "Documentation"⟩]
    ["bug"] (fun _ => none) (fun _ => none) (fun _ => rfl)

/-- Witness for C7: the create request issued for docs targets a name
absent from the target, and the existing name bug survives the run. -/
theorem additive_only_reconciliation_witness :
    ¬ (Label.toCall ⟨"docs", "0000ff", "Documentation"⟩).name
        ∈ (["bug"] : List String) ∧
    "bug" ∈ applyCalls ["bug"]
        (sync_labels_to_repo [⟨"docs", "0000ff", "Documentation"⟩]
          ["bug"] (fun _ => none) false).calls (fun _ => none) :=
  ⟨(additive_only_reconciliation [⟨"docs", "0000ff", "Documentation"⟩]
      ["bug"] (fun _ => none)).1
      (Label.toCall ⟨"docs", "0000ff", "Documentation"⟩) (by decide),
   (additive_only_reconciliation [⟨"docs", "0000ff", "Documentation"⟩]
      ["bug"] (fun _ => none)).2 "bug" (by decide)⟩

/-- If no source label is named `b` and every create on a name other than
`b` succeeds, the run records no error. -/
theorem sync_errors_nil_of_not_mem (S : List Label) (ex : List String)
    (remote : String → Option String) (b : String)
    (hothers : ∀ n, n ≠ b → remote n = none)
    (hb : ¬ b ∈ S.map Label.name) :
    (sync_labels_to_repo S ex remote false).errors = [] := by
  rw [sync_errors_eq, List.filterMap_eq_nil_iff]
  intro l hl
  by_cases hmem : l.name ∈ ex
  · simp [hmem]
  · have hne : l.name ≠ b := fun h => hb (h ▸ List.mem_map_of_mem Label.name hl)
    simp [hmem, hothers _ hne]

/-- When the create call fails exactly on the name `b` (absent from the
target, occurring once in the source), the recorded errors are exactly the
one pair (b, msg). -/
theorem sync_errors_single (S : List Label) (ex : List String)
    (remote : String → Option String) (b msg : String)
    (hb : remote b = some msg)
    (hothers : ∀ n, n ≠ b → remote n = none)
    (hbS : b ∈ S.map Label.name) (hbex : ¬ b ∈ ex)
    (hnd : (S.map Label.name).Nodup) :
    (sync_labels_to_repo S ex remote false).errors = [(b, msg)] := by
  induction S with
  | nil => simp at hbS
  | cons lab rest ih =>
    simp only [List.map_cons, List.nodup_cons, List.mem_cons] at hbS hnd
    by_cases hl : lab.name = b
    · subst hl
      have hrest : (sync_labels_to_repo rest ex remote false).errors = [] :=
        sync_errors_nil_of_not_mem rest ex remote lab.name hothers hnd.1
      simp only [sync_labels_to_repo]
      simp [hbex, hb, hrest]
    · have hbrest : b ∈ rest.map Label.name := by
        rcases hbS with h | h
        · exact absurd h.symm hl
        · exact h
      have hres := ih hbrest hnd.2
      simp only [sync_labels_to_repo]
      by_cases hmem : lab.name ∈ ex
      · simp [hmem, hres]
      · simp [hmem, hothers lab.name hl, hres]

/-- C6: failures are isolated to their unit of work.  First part: when the
create call fails exactly for the one absent name b, the outcome records
exactly one error, for b, while every other absent source label is still
created and every present one skipped.  Second part: when the fetch of one
target fails, the loop adds exactly one error for that target, contributes
none of its creates/skips/calls, and still processes the remaining declared
targets. -/
theorem failure_isolation :
    (∀ (S : List Label) (ex : List String) (remote : String → Option String)
        (b msg : String),
      remote b = some msg → (∀ n, n ≠ b → remote n = none) →
      b ∈ S.map Label.name → ¬ b ∈ ex → (S.map Label.name).Nodup →
      (sync_labels_to_repo S ex remote false).errors = [(b, msg)] ∧
      (sync_labels_to_repo S ex remote false).created
        = (S.map Label.name).filter
            (fun n => decide (¬ n ∈ ex) && decide (n ≠ b)) ∧
      (sync_labels_to_repo S ex remote false).skipped
        = (S.map Label.name).filter (fun n => decide (n ∈ ex))) ∧
    (∀ (org : String) (S : List Label)
        (tf : String → Option (List String))
        (rm : String → String → Option String) (r : String)
        (rest : List String),
      tf (org ++ "/" ++ r) = none →
      syncAll org S tf rm (r :: rest)
        = ⟨(syncAll org S tf rm rest).total_created,
           (syncAll org S tf rm rest).total_skipped,
           (syncAll org S tf rm rest).total_errors + 1,
           (org ++ "/" ++ r) :: (syncAll org S tf rm rest).attempted,
           (syncAll org S tf rm rest).all_calls⟩) := by
  constructor
  · intro S ex remote b msg hb hothers hbS hbex hnd
    refine ⟨sync_errors_single S ex remote b msg hb hothers hbS hbex hnd, ?_, ?_⟩
    · rw [sync_created_eq, List.filter_map]
      refine congrArg (List.map Label.name) (List.filter_congr ?_)
      intro l _
      by_cases hl : l.name = b
      · simp [Function.comp, hl, hb]
      · simp [Function.comp, hl, hothers _ hl]
    · rw [sync_skipped_eq, List.filter_map]
      rfl
  · intro org S tf rm r rest h
    simp only [syncAll]
    rw [h]

/-- Witness for C6: create fails only for docs on a target holding bug
(one error, nothing else lost), and a dead target adds one error while the
loop goes on (here: to the empty remainder). -/
theorem failure_isolation_witness :
    ((sync_labels_to_repo
        [⟨"bug", "ff0000", ""⟩, ⟨"docs", "0000ff", "Documentation"⟩]
        ["bug"] (fun n => if n = "docs" then some "boom" else none)
        false).errors = [("docs", "boom")] ∧
     (sync_labels_to_repo
        [⟨"bug", "ff0000", ""⟩, ⟨"docs", "0000ff", "Documentation"⟩]
        ["bug"] (fun n => if n = "docs" then some "boom" else none)
        false).created
       = (([⟨"bug", "ff0000", ""⟩, ⟨"docs", "0000ff", "Documentation"⟩] :
             List Label).map Label.name).filter
           (fun n => decide (¬ n ∈ ["bug"]) && decide (n ≠ "docs")) ∧
     (sync_labels_to_repo
        [⟨"bug", "ff0000", ""⟩, ⟨"docs", "0000ff", "Documentation"⟩]
        ["bug"] (fun n => if n = "docs" then some "boom" else none)
        false).skipped
       = (([⟨"bug", "ff0000", ""⟩, ⟨"docs", "0000ff", "Documentation"⟩] :
             List Label).map Label.name).filter (fun n => decide (n ∈ ["bug"]))) ∧
    syncAll "acme" [⟨"bug", "ff0000", ""⟩] (fun _ => none) (fun _ _ => none)
        ["svc-a"]
      = ⟨(syncAll "acme" [⟨"bug", "ff0000", ""⟩] (fun _ => none)
            (fun _ _ => none) []).total_created,
         (syncAll "acme" [⟨"bug", "ff0000", ""⟩] (fun _ => none)
            (fun _ _ => none) []).total_skipped,
         (syncAll "acme" [⟨"bug", "ff0000", ""⟩] (fun _ => none)
            (fun _ _ => none) []).total_errors + 1,
         ("acme" ++ "/" ++ "svc-a") :: (syncAll "acme" [⟨"bug", "ff0000", ""⟩]
            (fun _ => none) (fun _ _ => none) []).attempted,
         (syncAll "acme" [⟨"bug", "ff0000", ""⟩] (fun _ => none)
            (fun _ _ => none) []).all_calls⟩ :=
  ⟨failure_isolation.1
      [⟨"bug", "ff0000", ""⟩, ⟨"docs", "0000ff", "Documentation"⟩]
      ["bug"] (fun n => if n = "docs" then some "boom" else none)
      "docs" "boom" (by simp) (fun n hn => by simp [hn]) (by decide) (by decide)
      (by decide),
   failure_isolation.2 "acme" [⟨"bug", "ff0000", ""⟩] (fun _ => none)
      (fun _ _ => none) "svc-a" [] rfl⟩

/-- The per-target loop attempts exactly the declared targets, in order,
each resolved as org/name. -/
theorem syncAll_attempted_eq (org : String) (S : List Label)
    (tf : String → Option (List String)) (rm : String → String → Option String)
    (repos : List String) :
    (syncAll org S tf rm repos).attempted
      = repos.map (fun r => org ++ "/" ++ r) := by
  induction repos with
  | nil => rfl
  | cons r rest ih =>
    simp only [syncAll]
    cases tf (org ++ "/" ++ r) <;> simp [ih]

/-- Every create request the loop issues is tagged with one of the
resolved org/name identifiers. -/
theorem syncAll_calls_tagged (org : String) (S : List Label)
    (tf : String → Option (List String)) (rm : String → String → Option String)
    (repos : List String) :
    ∀ p ∈ (syncAll org S tf rm repos).all_calls,
      p.1 ∈ repos.map (fun r => org ++ "/" ++ r) := by
  induction repos with
  | nil => intro p hp; simp [syncAll] at hp
  | cons r rest ih =>
    intro p hp
    simp only [syncAll] at hp
    cases htf : tf (org ++ "/" ++ r) with
    | none =>
        rw [htf] at hp
        exact List.mem_cons_of_mem _ (ih p hp)
    | some ex =>
        rw [htf] at hp
        simp only [List.mem_append, List.mem_map] at hp
        rcases hp with ⟨c, _, hc⟩ | hp
        · subst hc
          exact List.mem_cons_self _ _
        · exact List.mem_cons_of_mem _ (ih p hp)

/-- C4: the process exits 0 iff total_errors is 0 at the end of a
completed run (so also with zero targets or zero creates), exits 1 when
the run does not complete, and when accessing the source repository or
fetching its labels fails, the exit is 1 with no target attempted and no
create call issued. -/
theorem exit_code_signaling (env : Env) :
    ((main env).completed = true →
      ((main env).exit_code = 0 ↔ (main env).total_errors = 0)) ∧
    ((main env).completed = false → (main env).exit_code = 1) ∧
    (env.github_token.isSome → env.github_repository.isSome →
      (env.source_access = none ∨ env.source_labels_fetch = none) →
      (main env).exit_code = 1 ∧ (main env).attempted = [] ∧
        (main env).all_calls = []) := by
  obtain ⟨tok, rep, src, labs, fx, repos, tf, rm⟩ := env
  cases tok <;> cases rep <;> cases src <;> cases labs <;> cases fx <;>
    simp [main, abortResult]

/-- Witness for C4, on a run that completes with one target and no error,
and on a run whose source-label fetch fails. -/
theorem exit_code_signaling_witness :
    ((main ⟨some "t", some "acme/spine", some "acme", some [⟨"bug", "ff0000", ""⟩],
        true, ["svc-a"], fun _ => some [], fun _ _ => none⟩).exit_code = 0 ↔
      (main ⟨some "t", some "acme/spine", some "acme", some [⟨"bug", "ff0000", ""⟩],
        true, ["svc-a"], fun _ => some [], fun _ _ => none⟩).total_errors = 0) ∧
    ((main ⟨some "t", some "acme/spine", some "acme", none,
        true, ["svc-a"], fun _ => some [], fun _ _ => none⟩).exit_code = 1 ∧
     (main ⟨some "t", some "acme/spine", some "acme", none,
        true, ["svc-a"], fun _ => some [], fun _ _ => none⟩).attempted = [] ∧
     (main ⟨some "t", some "acme/spine", some "acme", none,
        true, ["svc-a"], fun _ => some [], fun _ _ => none⟩).all_calls = []) :=
  ⟨(exit_code_signaling _).1 rfl,
   (exit_code_signaling _).2.2 rfl rfl (Or.inr rfl)⟩

/-- C5: on a run that reaches the target loop with source organization
org, every declared downstream entry r is attempted exactly as the
identifier org/r, in declaration order, and every create request issued is
against one of these identifiers — a bare name is never used as-is nor
resolved against another owner. -/
theorem target_resolution_org (env : Env) (org : String)
    (hsrc : env.source_access = some org)
    (htok : env.github_token.isSome) (hrep : env.github_repository.isSome)
    (hlab : env.source_labels_fetch.isSome) (hf : env.repos_file_exists = true) :
    (main env).attempted = env.downstream_repos.map (fun r => org ++ "/" ++ r) ∧
    ∀ p ∈ (main env).all_calls,
      p.1 ∈ env.downstream_repos.map (fun r => org ++ "/" ++ r) := by
  obtain ⟨tok, rep, src, labs, fx, repos, tf, rm⟩ := env
  obtain ⟨t, rfl⟩ := Option.isSome_iff_exists.mp htok
  obtain ⟨rp, rfl⟩ := Option.isSome_iff_exists.mp hrep
  obtain ⟨ls, rfl⟩ := Option.isSome_iff_exists.mp hlab
  simp only at hsrc hf
  subst hsrc hf
  exact ⟨syncAll_attempted_eq org ls tf rm repos,
         syncAll_calls_tagged org ls tf rm repos⟩

/-- Witness for C5: one declared entry svc-a under organization acme is
attempted as acme/svc-a, and the single create call is tagged with it. -/
theorem target_resolution_org_witness :
    (main ⟨some "t", some "acme/spine", some "acme", some [⟨"bug", "ff0000", ""⟩],
        true, ["svc-a"], fun _ => some [], fun _ _ => none⟩).attempted
      = (["svc-a"] : List String).map (fun r => "acme" ++ "/" ++ r) ∧
    ∀ p ∈ (main ⟨some "t", some "acme/spine", some "acme",
        some [⟨"bug", "ff0000", ""⟩], true, ["svc-a"], fun _ => some [],
        fun _ _ => none⟩).all_calls,
      p.1 ∈ (["svc-a"] : List String).map (fun r => "acme" ++ "/" ++ r) :=
  target_resolution_org _ "acme" rfl rfl rfl rfl rfl

/-- C8 counterexample: the empty YAML document loads as null, a
structurally parseable document with no repos key, yet load_repos raises
AttributeError on it rather than returning the empty list; and a document
whose repos key holds an empty (null) value makes load_repos return null,
not the empty list. -/
theorem load_repos_nonmapping_raises :
    load_repos Yaml.ynull = Except.error "AttributeError" ∧
    load_repos Yaml.ynull ≠ Except.ok (Yaml.ylist []) ∧
    load_repos (Yaml.ydict [("repos", Yaml.ynull)]) = Except.ok Yaml.ynull ∧
    (Except.ok Yaml.ynull : Except String Yaml) ≠ Except.ok (Yaml.ylist []) := by
  refine ⟨rfl, ?_, rfl, ?_⟩
  · intro h
    exact Except.noConfusion h
  · intro h
    exact Yaml.noConfusion (Except.ok.inj h)

/-- C8 amended: for every config document that loads as a top-level
mapping, load_repos returns the empty list, without raising, when the
repos key is missing or its value is the empty list; the orchestrator then
treats zero targets as a no-op success (exit 0, nothing attempted, no
create call). -/
theorem load_repos_missing_or_empty (es es' : List (String × Yaml)) (env : Env)
    (hmiss : es.find? (fun p => p.1 == "repos") = none)
    (hempty : es'.find? (fun p => p.1 == "repos") = some ("repos", Yaml.ylist []))
    (htok : env.github_token.isSome) (hrep : env.github_repository.isSome)
    (hsrc : env.source_access.isSome) (hlab : env.source_labels_fetch.isSome)
    (hf : env.repos_file_exists = true) (hrepos : env.downstream_repos = []) :
    load_repos (Yaml.ydict es) = Except.ok (Yaml.ylist []) ∧
    load_repos (Yaml.ydict es') = Except.ok (Yaml.ylist []) ∧
    (main env).exit_code = 0 ∧ (main env).completed = true ∧
    (main env).total_errors = 0 ∧ (main env).attempted = [] ∧
    (main env).all_calls = [] := by
  refine ⟨?_, ?_, ?_⟩
  · simp [load_repos, dictGet, hmiss]
  · simp [load_repos, dictGet, hempty]
  · obtain ⟨tok, rep, src, labs, fx, repos, tf, rm⟩ := env
    obtain ⟨t, rfl⟩ := Option.isSome_iff_exists.mp htok
    obtain ⟨rp, rfl⟩ := Option.isSome_iff_exists.mp hrep
    obtain ⟨og, rfl⟩ := Option.isSome_iff_exists.mp hsrc
    obtain ⟨ls, rfl⟩ := Option.isSome_iff_exists.mp hlab
    simp only at hf hrepos
    subst hf hrepos
    simp [main, syncAll]

/-- Witness for C8 amended: a mapping without repos, a mapping whose repos
entry is the empty list in second (non-head) position, and a zero-target
run exiting 0. -/
theorem load_repos_missing_or_empty_witness :
    load_repos (Yaml.ydict [("other", Yaml.ystr "x")])
      = Except.ok (Yaml.ylist []) ∧
    load_repos (Yaml.ydict [("other", Yaml.ystr "x"), ("repos", Yaml.ylist [])])
      = Except.ok (Yaml.ylist []) ∧
    (main ⟨some "t", some "acme/spine", some "acme", some [], true, [],
        fun _ => some [], fun _ _ => none⟩).exit_code = 0 ∧
    (main ⟨some "t", some "acme/spine", some "acme", some [], true, [],
        fun _ => some [], fun _ _ => none⟩).completed = true ∧
    (main ⟨some "t", some "acme/spine", some "acme", some [], true, [],
        fun _ => some [], fun _ _ => none⟩).total_errors = 0 ∧
    (main ⟨some "t", some "acme/spine", some "acme", some [], true, [],
        fun _ => some [], fun _ _ => none⟩).attempted = [] ∧
    (main ⟨some "t", some "acme/spine", some "acme", some [], true, [],
        fun _ => some [], fun _ _ => none⟩).all_calls = [] :=
  load_repos_missing_or_empty [("other", Yaml.ystr "x")]
    [("other", Yaml.ystr "x"), ("repos", Yaml.ylist [])]
    ⟨some "t", some "acme/spine", some "acme", some [], true, [],
      fun _ => some [], fun _ _ => none⟩
    rfl rfl rfl rfl rfl rfl rfl rfl

end SyncLabels
